import Mathlib

/-!
Shallow embedding of the structural code validator of `src/validator.ts`
(class `CodeValidator`).  Source text is modelled as `List Char`; the
diagnostics of the external syntax-parse collaborator (the TypeScript
compiler, not part of this repository's validator code) are passed to the
orchestrator as an explicit argument.
-/

namespace Shipkit

/-- Convert a string literal to the `List Char` representation used throughout. -/
def lstr (s : String) : List Char := s.data

/-- The backslash character. -/
def bsC : Char := Char.ofNat 92

/-- The double-quote character. -/
def dqC : Char := Char.ofNat 34

/-- The single-quote character. -/
def sqC : Char := Char.ofNat 39

/-- The backtick character. -/
def btC : Char := Char.ofNat 96

/-- The opening curly brace character. -/
def lbC : Char := Char.ofNat 123

/-- The closing curly brace character. -/
def rbC : Char := Char.ofNat 125

/-- ASCII whitespace, modelling the JavaScript regex class `\s` on ASCII input. -/
def jsWs (c : Char) : Bool :=
  c = ' ' || c = '\t' || c = '\n' || c = '\r' || c = Char.ofNat 11 || c = Char.ofNat 12

/-- JavaScript regex word character `\w`: letters, digits, underscore. -/
def isWordChar (c : Char) : Bool := c.isAlpha || c.isDigit || c = '_'

/-! ## Bracket balance checker (`areBracketsBalanced`, validator.ts lines 326-376) -/

/-- Scanner state of `areBracketsBalanced`: the bracket counter, the
string/template mode, the pending-escape flag, and whether the scan already
returned `false` (the JS code returns early; we freeze the state instead). -/
structure BState where
  count : Int
  inString : Bool
  stringChar : Char
  inTemplate : Bool
  escaped : Bool
  failed : Bool
deriving DecidableEq

/-- Initial scanner state of `areBracketsBalanced`. -/
def bracketInit : BState :=
  { count := 0, inString := false, stringChar := Char.ofNat 0,
    inTemplate := false, escaped := false, failed := false }

/-- One loop iteration of `areBracketsBalanced` (validator.ts lines 333-373),
for the character `c` whose predecessor in the raw input is `prev`. -/
def bracketStep (opn cls : Char) (s : BState) (prev : Option Char) (c : Char) : BState :=
  if s.failed then s
  else if s.escaped = true then { s with escaped := false }
  else if c = bsC then { s with escaped := true }
  else if s.inString = false ∧ s.inTemplate = false ∧ (c = dqC ∨ c = sqC) then
    { s with inString := true, stringChar := c }
  else if s.inString = true ∧ c = s.stringChar then { s with inString := false }
  else if s.inString = false ∧ s.inTemplate = false ∧ c = btC then
    { s with inTemplate := true }
  else if s.inTemplate = true ∧ c = btC ∧ prev ≠ some bsC then
    { s with inTemplate := false }
  else if s.inString = true ∨ s.inTemplate = true then s
  else
    let c1 : Int := if c = opn then s.count + 1 else s.count
    let c2 : Int := if c = cls then c1 - 1 else c1
    if c2 < 0 then { s with count := c2, failed := true }
    else { s with count := c2 }

/-- Run the `areBracketsBalanced` scanner over the remaining input,
threading the previous raw character. -/
def bracketRun (opn cls : Char) : BState → Option Char → List Char → BState
  | s, _, [] => s
  | s, prev, c :: cs => bracketRun opn cls (bracketStep opn cls s prev c) (some c) cs

/-- `CodeValidator.areBracketsBalanced` (validator.ts lines 326-376). -/
def areBracketsBalanced (code : List Char) (opn cls : Char) : Bool :=
  let f := bracketRun opn cls bracketInit none code
  !f.failed && f.count == 0

/-- `CodeValidator.hasUnmatchedBraces` (validator.ts lines 318-320). -/
def hasUnmatchedBraces (code : List Char) : Bool :=
  !areBracketsBalanced code lbC rbC

/-- `CodeValidator.hasUnmatchedParentheses` (validator.ts lines 322-324). -/
def hasUnmatchedParentheses (code : List Char) : Bool :=
  !areBracketsBalanced code '(' ')'

/-- The counter values observed after each scanned character
(the trace of `count` along the run of `areBracketsBalanced`). -/
def bracketTrace (opn cls : Char) : BState → Option Char → List Char → List Int
  | _, _, [] => []
  | s, prev, c :: cs =>
    let s1 := bracketStep opn cls s prev c
    s1.count :: bracketTrace opn cls s1 (some c) cs

/-! ## JSX expression stripper (`stripJsxExpressionContent`, validator.ts lines 175-253) -/

/-- Scanner state of `stripJsxExpressionContent`.  `revResult` is the
accumulated output `result`, most recent character first. -/
structure SState where
  revResult : List Char
  inString : Bool
  stringChar : Char
  inTemplate : Bool
  braceDepth : Int
  inBlock : Bool
deriving DecidableEq

/-- Initial state of the stripper scan. -/
def stripInit : SState :=
  { revResult := [], inString := false, stringChar := Char.ofNat 0,
    inTemplate := false, braceDepth := 0, inBlock := false }

/-- Test of the regex `/>\s*$/` against the lookback window
(window given most recent character first). -/
def endsGtWs (rev : List Char) : Bool :=
  match rev.dropWhile jsWs with
  | c :: _ => c = '>'
  | [] => false

/-- Test of the regex `/<[A-Za-z][^>]*$/` against the lookback window:
scanning from the most recent character backwards, find a `<` directly
followed (in text order, i.e. the previously visited character) by a letter,
with no `>` in between.  `prev` is the character already visited, which sits
just after the current one in text order. -/
def openTagTail : List Char → Option Char → Bool
  | [], _ => false
  | c :: cs, prev =>
    if c = '>' then false
    else if c = '<' then
      (match prev with
       | some p => p.isAlpha
       | none => false) || openTagTail cs (some c)
    else openTagTail cs (some c)

/-- The classification of validator.ts lines 225-226: look at the last 50
emitted characters (`result.slice(-50)`) and test the two regexes. -/
def classifyJsx (revResult : List Char) : Bool :=
  let w := revResult.take 50
  endsGtWs w || openTagTail w none

/-- Append `c` to the output unless the scan sits inside a JSX expression
block (`if (!inJsxExpressionBlock) result += char`). -/
def emitCh (s : SState) (c : Char) : SState :=
  if s.inBlock then s else { s with revResult := c :: s.revResult }

/-- One loop iteration of `stripJsxExpressionContent` (validator.ts lines
183-250) for character `c` with raw predecessor `prev`. -/
def stripStep (s : SState) (prev : Option Char) (c : Char) : SState :=
  if prev = some bsC ∧ (s.inString = true ∨ s.inTemplate = true) then emitCh s c
  else if s.inString = false ∧ s.inTemplate = false ∧ (c = dqC ∨ c = sqC) then
    emitCh { s with inString := true, stringChar := c } c
  else if s.inString = true ∧ c = s.stringChar then emitCh { s with inString := false } c
  else if s.inString = false ∧ s.inTemplate = false ∧ c = btC then
    emitCh { s with inTemplate := true } c
  else if s.inTemplate = true ∧ c = btC then emitCh { s with inTemplate := false } c
  else if s.inString = true ∨ s.inTemplate = true then emitCh s c
  else if c = lbC then
    let s1 := { s with braceDepth := s.braceDepth + 1 }
    if s1.braceDepth = 1 ∧ classifyJsx s.revResult then
      { s1 with inBlock := true, revResult := lbC :: s1.revResult }
    else { s1 with revResult := c :: s1.revResult }
  else if c = rbC then
    let s1 := { s with braceDepth := s.braceDepth - 1 }
    if s.inBlock = true ∧ s1.braceDepth = 0 then
      { s1 with inBlock := false, revResult := rbC :: s1.revResult }
    else emitCh s1 c
  else emitCh s c

/-- Run the stripper scan over the remaining input, threading the previous
raw character. -/
def stripRun : SState → Option Char → List Char → SState
  | s, _, [] => s
  | s, prev, c :: cs => stripRun (stripStep s prev c) (some c) cs

/-- `CodeValidator.stripJsxExpressionContent` (validator.ts lines 175-253). -/
def stripJsxExpressionContent (code : List Char) : List Char :=
  (stripRun stripInit none code).revResult.reverse

/-! ## Tag stack validator (`findUnclosedJsxTags`, validator.ts lines 124-173) -/

/-- One token produced by the tag regex
`/<\/?([A-Za-z][A-Za-z0-9.]*)[^>]*\/?>/g`: whether the full match starts
with `</`, the captured tag name, and whether the full match ends in `/>`. -/
structure JsxTag where
  closing : Bool
  name : List Char
  selfClose : Bool
deriving DecidableEq

/-- Characters allowed after the first letter of a tag name: `[A-Za-z0-9.]`. -/
def isNameChar (c : Char) : Bool := c.isAlpha || c.isDigit || c = '.'

/-- Split a list at its first `>`: returns the characters before it
(matching `[^>]*`) and the remainder after it, or `none` if no `>` occurs. -/
def splitAtGt : List Char → Option (List Char × List Char)
  | [] => none
  | c :: cs =>
    if c = '>' then some ([], cs)
    else
      match splitAtGt cs with
      | some (b, r) => some (c :: b, r)
      | none => none

/-- Complete a tag match after `<` (and an optional `/`) and the first letter
`c` of the name have been consumed; `r3` is the rest of the input. -/
def matchTagBody (closing : Bool) (c : Char) (r3 : List Char) :
    Option (JsxTag × List Char) :=
  match splitAtGt (r3.dropWhile isNameChar) with
  | some (between, r5) =>
    some ({ closing := closing, name := c :: r3.takeWhile isNameChar,
            selfClose := between.getLast? = some '/' }, r5)
  | none => none

/-- Try to match the tag regex at the head of the input; on success return
the token and the input following the match. -/
def matchTagAt : List Char → Option (JsxTag × List Char)
  | '<' :: '/' :: c :: r3 => if c.isAlpha then matchTagBody true c r3 else none
  | '<' :: c :: r3 => if c.isAlpha then matchTagBody false c r3 else none
  | _ => none

/-- All tag tokens of the input, leftmost first, continuing after each match
(the semantics of the global `tagRegex.exec` loop, validator.ts line 149).
The fuel argument bounds the recursion; `findTags` supplies enough. -/
def findTagsFuel : Nat → List Char → List JsxTag
  | 0, _ => []
  | _ + 1, [] => []
  | fuel + 1, c :: cs =>
    match matchTagAt (c :: cs) with
    | some (t, rest) => t :: findTagsFuel fuel rest
    | none => findTagsFuel fuel cs

/-- All tag tokens of the input, leftmost first. -/
def findTags (l : List Char) : List JsxTag := findTagsFuel l.length l

/-- The void-element allowlist of validator.ts lines 126-141. -/
def voidTags : List (List Char) :=
  [lstr "img", lstr "br", lstr "hr", lstr "input", lstr "meta", lstr "link",
   lstr "area", lstr "base", lstr "col", lstr "embed", lstr "param",
   lstr "source", lstr "track", lstr "wbr"]

/-- The error message for an unexpected closing tag. -/
def unexpectedCloseMsg (name : List Char) : List Char :=
  lstr "Unexpected closing tag: </" ++ name ++ lstr ">"

/-- The error message for an unclosed tag. -/
def unclosedMsg (name : List Char) : List Char :=
  lstr "Unclosed tag: <" ++ name ++ lstr ">"

/-- One iteration of the tag loop (validator.ts lines 149-166) on the pair
(tag stack with its top first, errors so far). -/
def tagStep (acc : List (List Char) × List (List Char)) (t : JsxTag) :
    List (List Char) × List (List Char) :=
  if t.selfClose then acc
  else if (t.name.map Char.toLower) ∈ voidTags then acc
  else if t.closing then
    match acc.1 with
    | top :: rest =>
      if top = t.name then (rest, acc.2)
      else (acc.1, acc.2 ++ [unexpectedCloseMsg t.name])
    | [] => (acc.1, acc.2 ++ [unexpectedCloseMsg t.name])
  else (t.name :: acc.1, acc.2)

/-- `CodeValidator.findUnclosedJsxTags` (validator.ts lines 124-173): run the
tag loop on the stripped text, then report every name still on the stack in
bottom-to-top order. -/
def findUnclosedJsxTags (code : List Char) : List (List Char) :=
  let stripped := stripJsxExpressionContent code
  let r := (findTags stripped).foldl tagStep ([], [])
  r.2 ++ r.1.reverse.map unclosedMsg

/-! ## Import heuristics (validator.ts lines 255-316) -/

/-- Does the suffix start with `import` followed by a `\s` character?
(The head of the regex `/^import\s/m` at one position.) -/
def startsImport (l : List Char) : Bool :=
  match l with
  | 'i' :: 'm' :: 'p' :: 'o' :: 'r' :: 't' :: c :: _ => jsWs c
  | _ => false

/-- Scan for a position where `/^import\s/m` matches: the start of the
input, or any position directly after a line terminator. -/
def hasImportAux : List Char → Bool → Bool
  | [], _ => false
  | c :: cs, atStart =>
    (atStart && startsImport (c :: cs)) || hasImportAux cs (c = '\n' || c = '\r')

/-- `CodeValidator.hasImportStatements` (validator.ts lines 255-257). -/
def hasImportStatements (code : List Char) : Bool := hasImportAux code true

/-- `\b` to the left of a word-character: the previous character, if any,
is not a word character. -/
def boundaryBefore : Option Char → Bool
  | none => true
  | some p => !isWordChar p

/-- `\b` to the right of a word-character: the next character, if any,
is not a word character. -/
def boundaryAfter : List Char → Bool
  | [] => true
  | c :: _ => !isWordChar c

/-- Match one usage pattern at the head of the suffix `l`: the name itself,
then either a trailing `\b` (`paren = false`, e.g. `/\buseState\b/`) or
`\s*\(` (`paren = true`, e.g. `/\bref\s*\(/`). -/
def usageAt (name : List Char) (paren : Bool) (l : List Char) : Bool :=
  name.isPrefixOf l &&
    (let rest := l.drop name.length
     if paren then
       match rest.dropWhile jsWs with
       | '(' :: _ => true
       | _ => false
     else boundaryAfter rest)

/-- Scan the whole input for a usage-pattern match (with the leading `\b`),
threading the previous character. -/
def usageOccursAux (name : List Char) (paren : Bool) : List Char → Option Char → Bool
  | [], _ => false
  | c :: cs, prev =>
    (boundaryBefore prev && usageAt name paren (c :: cs)) ||
      usageOccursAux name paren cs (some c)

/-- `pattern.test(code)` for one entry of the framework table. -/
def usageOccurs (name : List Char) (paren : Bool) (code : List Char) : Bool :=
  usageOccursAux name paren code none

/-- `code.replace(/\s+/g, " ")` (validator.ts line 301): every maximal run
of whitespace becomes a single space. -/
def normWsAux : Bool → List Char → List Char
  | _, [] => []
  | prevWs, c :: cs =>
    if jsWs c then
      if prevWs then normWsAux true cs else ' ' :: normWsAux true cs
    else c :: normWsAux false cs

/-- Whitespace normalisation applied by `hasImport`. -/
def normalizeWs (l : List Char) : List Char := normWsAux false l

/-- Lower-case a character; used for the `i` regex flag. -/
def lcC (c : Char) : Char := c.toLower

/-- Case-insensitive "is prefix of" on character lists. -/
def ciStartsWith : List Char → List Char → Bool
  | [], _ => true
  | _ :: _, [] => false
  | p :: ps, c :: cs => (lcC p = lcC c) && ciStartsWith ps cs

/-- Case-insensitive `\bname\b` occurrence inside a brace segment, threading
the previous character; at segment start the previous character in the full
string is a brace, which is not a word character, so `none` counts as a
boundary. -/
def ciWordInAux (name : List Char) : List Char → Option Char → Bool
  | [], _ => false
  | c :: cs, prev =>
    (boundaryBefore prev && ciStartsWith name (c :: cs) &&
      boundaryAfter ((c :: cs).drop name.length)) ||
      ciWordInAux name cs (some c)

/-- Case-insensitive `\bname\b` occurrence inside a brace segment. -/
def ciWordIn (name seg : List Char) : Bool := ciWordInAux name seg none

/-- After a candidate `{` of the named-import regex: take the `}`-free
segment `[^}]*\bname\b[^}]*`, require a closing `}` and then `\s*from`. -/
def namedImportInside (name : List Char) (cs : List Char) : Bool :=
  let seg := cs.takeWhile (fun c => ¬(c = rbC))
  match cs.dropWhile (fun c => ¬(c = rbC)) with
  | _ :: after => ciWordIn name seg && ciStartsWith (lstr "from") (after.dropWhile jsWs)
  | [] => false

/-- The `[^;]*\{...` part of the named-import regex: scan characters after
`import\s`, stopping at `;`, and try every `{` as the brace of the import
list. -/
def namedImportBraces (name : List Char) : List Char → Bool
  | [] => false
  | c :: cs =>
    if c = ';' then false
    else if c = lbC then namedImportInside name cs || namedImportBraces name cs
    else namedImportBraces name cs

/-- Match the named-import regex
`/import\s+[^;]*\{[^}]*\bname\b[^}]*\}\s*from/i` at the head of `l`. -/
def namedImportAt (name : List Char) (l : List Char) : Bool :=
  ciStartsWith (lstr "import") l &&
    (match l.drop 6 with
     | c :: cs => jsWs c && namedImportBraces name cs
     | [] => false)

/-- Search the named-import regex anywhere in the input. -/
def namedImportSearch (name : List Char) : List Char → Bool
  | [] => false
  | c :: cs => namedImportAt name (c :: cs) || namedImportSearch name cs

/-- Match the destructuring regex
`/const\s*\{[^}]*\bname\b[^}]*\}\s*=\s*(require|React)/i` at the head of `l`. -/
def destructAt (name : List Char) (l : List Char) : Bool :=
  ciStartsWith (lstr "const") l &&
    (match (l.drop 5).dropWhile jsWs with
     | c :: cs =>
       c = lbC &&
         (let seg := cs.takeWhile (fun ch => ¬(ch = rbC))
          match cs.dropWhile (fun ch => ¬(ch = rbC)) with
          | _ :: after =>
            ciWordIn name seg &&
              (match after.dropWhile jsWs with
               | '=' :: a2 =>
                 let a3 := a2.dropWhile jsWs
                 ciStartsWith (lstr "require") a3 || ciStartsWith (lstr "react") a3
               | _ => false)
          | [] => false)
     | [] => false)

/-- Search the destructuring regex anywhere in the input. -/
def destructSearch (name : List Char) : List Char → Bool
  | [] => false
  | c :: cs => destructAt name (c :: cs) || destructSearch name cs

/-- `CodeValidator.hasImport` (validator.ts lines 300-316). -/
def hasImport (code : List Char) (importName : List Char) : Bool :=
  let norm := normalizeWs code
  namedImportSearch importName norm || destructSearch importName norm

/-- The framework selector (`Framework` in types.ts). -/
inductive Framework where
  | react
  | vue
  | svelte
  | solid
  | vanilla
deriving DecidableEq

/-- The static per-framework table of validator.ts lines 262-286; the
boolean is `true` for usage patterns of the form `\bname\s*\(` and `false`
for `\bname\b`. -/
def frameworkChecks : Framework → List (List Char × Bool)
  | .react =>
    [(lstr "useState", false), (lstr "useEffect", false), (lstr "useRef", false),
     (lstr "useMemo", false), (lstr "useCallback", false),
     (lstr "useContext", false), (lstr "useReducer", false)]
  | .vue =>
    [(lstr "ref", true), (lstr "reactive", true), (lstr "computed", true),
     (lstr "watch", true), (lstr "onMounted", true)]
  | .solid =>
    [(lstr "createSignal", false), (lstr "createEffect", false),
     (lstr "createStore", false)]
  | .svelte => []
  | .vanilla => []

/-- The warning message for a possibly missing import. -/
def missingImportMsg (name : List Char) : List Char :=
  lstr "Possibly missing import: " ++ name

/-- `CodeValidator.detectMissingImports` (validator.ts lines 259-298). -/
def detectMissingImports (code : List Char) (framework : Framework) : List (List Char) :=
  (frameworkChecks framework).filterMap fun p =>
    if usageOccurs p.1 p.2 code && !hasImport code p.1 then
      some (missingImportMsg p.1)
    else none

/-! ## Orchestrator (validator.ts lines 5-23 and 87-111) -/

/-- `CodeValidator.checkStructure` (validator.ts lines 87-111): the pair
(errors, warnings) of the structural phase. -/
def checkStructure (code : List Char) (framework : Framework) :
    List (List Char) × List (List Char) :=
  let errors := findUnclosedJsxTags code
  let warnings :=
    if hasImportStatements code then detectMissingImports code framework else []
  let errors := errors ++
    (if hasUnmatchedBraces code then [lstr "Unmatched braces detected"] else [])
  let errors := errors ++
    (if hasUnmatchedParentheses code then [lstr "Unmatched parentheses detected"] else [])
  (errors, warnings)

/-- `ValidationResult` of types.ts. -/
structure ValidationResult where
  valid : Bool
  errors : List (List Char)
  warnings : List (List Char)
deriving DecidableEq

/-- `CodeValidator.validate` (validator.ts lines 5-23), with the diagnostics
of the external syntax-parse collaborator passed in as `syntaxErrors`:
if the syntax phase reported nothing, run the structural phase and append
its output; `valid` iff the error list is empty. -/
def validate (syntaxErrors : List (List Char)) (code : List Char)
    (framework : Framework) : ValidationResult :=
  let structural :=
    if syntaxErrors.isEmpty then checkStructure code framework else ([], [])
  let errors := syntaxErrors ++ structural.1
  { valid := errors.isEmpty, errors := errors, warnings := structural.2 }

/-! ## Concrete inputs used by the theorems below -/

/-- The spec's example input with one unmatched opening brace. -/
def exBrace : List Char := lstr "function f() \x7b const x = 1;"

/-- An input with one unmatched opening parenthesis. -/
def exParen : List Char := lstr "const x = (1;"

/-- A JSX snippet with an object literal nested inside an expression block. -/
def exNested : List Char := lstr "<div>\x7b \x7ba\x7d \x7d</div>"

/-- The spec's example input with an unexpected closing tag. -/
def exClose : List Char := lstr "<div></span></div>"

/-- The spec's example input with one unclosed tag. -/
def exUnclosed : List Char := lstr "<div><p>Hello</p>"

/-- An input with two unclosed tags, outermost first on report. -/
def exUnclosed2 : List Char := lstr "<div><span>"

/-- React code using `useState` with only a default import of React. -/
def exReactDefault : List Char :=
  lstr "import React from " ++ [sqC] ++ lstr "react" ++ [sqC] ++
    lstr ";\nconst x = useState(0);"

/-- React code using `useState` with a named import of `useState`. -/
def exReactNamed : List Char :=
  lstr "import \x7b useState \x7d from " ++ [sqC] ++ lstr "react" ++ [sqC] ++
    lstr ";\nconst x = useState(0);"

/-- React code using `useState` with a named import spelled `USESTATE`. -/
def exReactUpper : List Char :=
  lstr "import \x7b USESTATE \x7d from " ++ [sqC] ++ lstr "react" ++ [sqC] ++
    lstr ";\nconst x = useState(0);"

/-- React code whose only hook-like usage is spelled `USESTATE`. -/
def exUsageUpper : List Char :=
  lstr "import React from " ++ [sqC] ++ lstr "react" ++ [sqC] ++
    lstr ";\nconst y = USESTATE(0);"

/-! ## Theorems -/

set_option maxHeartbeats 1000000

/-- Claim C1: for every input whose braces are balanced, whose parentheses
are balanced, whose tag check reports nothing, and for which the syntax
phase produced zero diagnostics, `validate` returns `valid = true` and an
empty error list. -/
theorem C1_all_clean_valid (code : List Char) (fw : Framework)
    (hb : areBracketsBalanced code lbC rbC = true)
    (hp : areBracketsBalanced code '(' ')' = true)
    (ht : findUnclosedJsxTags code = []) :
    (validate [] code fw).valid = true ∧ (validate [] code fw).errors = [] := by
  simp [validate, checkStructure, hasUnmatchedBraces, hasUnmatchedParentheses,
    hb, hp, ht]

theorem C1_all_clean_valid_witness :
    (validate [] (lstr "const x = 1") Framework.vanilla).valid = true ∧
    (validate [] (lstr "const x = 1") Framework.vanilla).errors = [] :=
  C1_all_clean_valid (lstr "const x = 1") Framework.vanilla
    (by decide) (by decide) (by decide)

/-- Claim C6: a non-empty syntax-diagnostic list short-circuits `validate`:
the result's errors are exactly the syntax diagnostics and the warnings are
empty; and in every case `valid` equals emptiness of the error list, so
warnings never affect validity. -/
theorem C6_syntax_short_circuit :
    (∀ (se : List (List Char)) (code : List Char) (fw : Framework), se ≠ [] →
      (validate se code fw).errors = se ∧ (validate se code fw).warnings = [] ∧
        (validate se code fw).valid = false) ∧
    (∀ (se : List (List Char)) (code : List Char) (fw : Framework),
      (validate se code fw).valid = (validate se code fw).errors.isEmpty) := by
  constructor
  · intro se code fw hse
    simp [validate, List.isEmpty_iff, hse]
  · intro se code fw
    rfl

theorem C6_syntax_short_circuit_witness :
    (validate [lstr "Line 1: x"] [] Framework.react).errors = [lstr "Line 1: x"] ∧
    (validate [lstr "Line 1: x"] [] Framework.react).warnings = [] ∧
    (validate [lstr "Line 1: x"] [] Framework.react).valid = false :=
  C6_syntax_short_circuit.1 [lstr "Line 1: x"] [] Framework.react (by decide)

/-- Once the bracket scan has failed, a step changes nothing
(modelling the early `return false`). -/
theorem bracketStep_of_failed (opn cls : Char) (s : BState) (prev : Option Char)
    (c : Char) (h : s.failed = true) : bracketStep opn cls s prev c = s := by
  simp [bracketStep, h]

/-- Once the bracket scan has failed, the whole remaining run changes nothing. -/
theorem bracketRun_of_failed (opn cls : Char) (l : List Char) :
    ∀ (s : BState) (prev : Option Char), s.failed = true →
      bracketRun opn cls s prev l = s := by
  induction l with
  | nil => intro s prev _; rfl
  | cons c cs ih =>
    intro s prev h
    simp only [bracketRun]
    rw [bracketStep_of_failed opn cls s prev c h, ih s (some c) h]

/-- A step from a live, non-negative state either stays live with a
non-negative counter, or fails with a negative counter. -/
theorem bracketStep_live (opn cls : Char) (s : BState) (prev : Option Char)
    (c : Char) (hf : s.failed = false) (hc : 0 ≤ s.count) :
    ((bracketStep opn cls s prev c).failed = false ∧
      0 ≤ (bracketStep opn cls s prev c).count) ∨
    ((bracketStep opn cls s prev c).failed = true ∧
      (bracketStep opn cls s prev c).count < 0) := by
  unfold bracketStep
  split_ifs <;>
    simp_all [apply_ite BState.count, apply_ite BState.failed] <;> omega

/-- The run from a live, non-negative state stays live exactly when every
counter value along the trace is non-negative. -/
theorem bracketRun_ok_iff (opn cls : Char) (l : List Char) :
    ∀ (s : BState) (prev : Option Char), s.failed = false → 0 ≤ s.count →
      ((bracketRun opn cls s prev l).failed = false ↔
        ∀ k ∈ bracketTrace opn cls s prev l, 0 ≤ k) := by
  induction l with
  | nil => intro s prev hf _; simp [bracketRun, bracketTrace, hf]
  | cons c cs ih =>
    intro s prev hf hc
    simp only [bracketRun, bracketTrace]
    rcases bracketStep_live opn cls s prev c hf hc with ⟨h1, hc1⟩ | ⟨h1, hneg⟩
    · rw [ih (bracketStep opn cls s prev c) (some c) h1 hc1]
      simp [List.forall_mem_cons, hc1]
    · rw [bracketRun_of_failed opn cls cs _ (some c) h1]
      simp only [h1, List.forall_mem_cons]
      constructor
      · intro h; exact absurd h (by simp)
      · intro h; omega

/-- Claim C5: outside strings/templates the bracket check increments its
counter on the open token and decrements it on the close token; inside a
string or template the counter never moves; and the input is reported
balanced exactly when the final counter is zero and the counter never went
negative at any point of the scan. -/
theorem C5_bracket_balance :
    (∀ (opn cls : Char) (s : BState) (prev : Option Char) (c : Char),
      s.failed = false → s.escaped = false → s.inString = false →
      s.inTemplate = false → c ≠ bsC → c ≠ dqC → c ≠ sqC → c ≠ btC →
      (bracketStep opn cls s prev c).count =
        (if c = opn then s.count + 1 else s.count) -
          (if c = cls then 1 else 0)) ∧
    (∀ (opn cls : Char) (s : BState) (prev : Option Char) (c : Char),
      s.failed = false → s.escaped = false → c ≠ bsC →
      (s.inString = true ∨ s.inTemplate = true) →
      (bracketStep opn cls s prev c).count = s.count) ∧
    (∀ (opn cls : Char) (code : List Char),
      areBracketsBalanced code opn cls = true ↔
        ((bracketRun opn cls bracketInit none code).count = 0 ∧
          ∀ k ∈ bracketTrace opn cls bracketInit none code, 0 ≤ k)) := by
  refine ⟨?_, ?_, ?_⟩
  · intro opn cls s prev c hf he hs ht hbs hdq hsq hbt
    unfold bracketStep
    split_ifs <;>
      simp_all [apply_ite BState.count, apply_ite BState.failed] <;> omega
  · intro opn cls s prev c hf he hbs hst
    unfold bracketStep
    split_ifs <;>
      simp_all [apply_ite BState.count, apply_ite BState.failed] <;> omega
  · intro opn cls code
    simp only [areBracketsBalanced, Bool.and_eq_true, Bool.not_eq_true',
      beq_iff_eq]
    rw [bracketRun_ok_iff opn cls code bracketInit none rfl (by decide)]
    exact and_comm

theorem C5_bracket_balance_witness :
    (bracketStep '(' ')' bracketInit none '(').count = 1 ∧
    (bracketStep '(' ')' { bracketInit with inString := true } none '(').count =
      ({ bracketInit with inString := true } : BState).count := by
  constructor
  · have h := C5_bracket_balance.1 '(' ')' bracketInit none '(' rfl rfl rfl rfl
      (by decide) (by decide) (by decide) (by decide)
    rw [h]; decide
  · exact C5_bracket_balance.2.1 '(' ')' { bracketInit with inString := true }
      none '(' rfl rfl (by decide) (Or.inl rfl)

/-- Claim C2, counterexample: on the spec's unmatched-brace example the
brace check fails, yet the error list is `["Unmatched braces detected"]`
and contains no "Unbalanced braces detected" message (and no message
mentioning "unbalanced" at all). -/
theorem C2_counterexample :
    hasUnmatchedBraces exBrace = true ∧
    (validate [] exBrace Framework.react).errors =
      [lstr "Unmatched braces detected"] ∧
    lstr "Unbalanced braces detected" ∉ (validate [] exBrace Framework.react).errors := by
  refine ⟨by decide, by decide, by decide⟩

/-- Claim C2 as amended: when the brace-balance check fails the error string
is "Unmatched braces detected" (and "Unmatched parentheses detected" for the
paren check); for the input `function f() { const x = 1;` the errors contain
the unmatched-braces message. -/
theorem C2_amended :
    (∀ (code : List Char) (fw : Framework), hasUnmatchedBraces code = true →
      lstr "Unmatched braces detected" ∈ (validate [] code fw).errors) ∧
    (∀ (code : List Char) (fw : Framework), hasUnmatchedParentheses code = true →
      lstr "Unmatched parentheses detected" ∈ (validate [] code fw).errors) ∧
    lstr "Unmatched braces detected" ∈ (validate [] exBrace Framework.react).errors := by
  refine ⟨?_, ?_, by decide⟩
  · intro code fw h
    simp [validate, checkStructure, h, List.mem_append]
  · intro code fw h
    simp [validate, checkStructure, h, List.mem_append]

theorem C2_amended_witness :
    lstr "Unmatched braces detected" ∈ (validate [] exBrace Framework.react).errors ∧
    lstr "Unmatched parentheses detected" ∈ (validate [] exParen Framework.react).errors :=
  ⟨C2_amended.1 exBrace Framework.react (by decide),
   C2_amended.2.1 exParen Framework.react (by decide)⟩

/-- Claim C4, counterexample: in the bracket-balance scan a backslash
outside any string or template does suppress the immediately following
bracket: `\{}` is reported unbalanced while `{}` is balanced. -/
theorem C4_counterexample :
    areBracketsBalanced [bsC, lbC, rbC] lbC rbC = false ∧
    areBracketsBalanced [lbC, rbC] lbC rbC = true := by
  refine ⟨by decide, by decide⟩

/-- Claim C4 as amended: in the expression stripper a backslash has an
effect only inside a string or template (outside them the previous
character is never consulted), but in the bracket-balance scanner a
backslash unconditionally sets the escape flag for the next character, so
outside strings it does suppress the count of an immediately following
bracket. -/
theorem C4_amended :
    (∀ (s : SState) (prev prev2 : Option Char) (c : Char),
      s.inString = false → s.inTemplate = false →
      stripStep s prev c = stripStep s prev2 c) ∧
    (∀ (opn cls : Char) (s : BState) (prev : Option Char),
      s.failed = false → s.escaped = false →
      bracketStep opn cls s prev bsC = { s with escaped := true }) ∧
    areBracketsBalanced [bsC, lbC, rbC] lbC rbC = false := by
  refine ⟨?_, ?_, by decide⟩
  · intro s prev prev2 c h1 h2
    simp [stripStep, h1, h2]
  · intro opn cls s prev hf he
    simp [bracketStep, hf, he]

theorem C4_amended_witness :
    stripStep stripInit (some bsC) 'a' = stripStep stripInit none 'a' ∧
    bracketStep lbC rbC bracketInit none bsC = { bracketInit with escaped := true } :=
  ⟨C4_amended.1 stripInit (some bsC) none 'a' rfl rfl,
   C4_amended.2.1 lbC rbC bracketInit none rfl rfl⟩

/-- Claim C3, counterexample: inside a classified expression block a nested
opening brace is NOT excluded from the stripped text: stripping
`<div>{ {a} }</div>` yields `<div>{{}</div>`, not the `<div>{}</div>`
required by the claim. -/
theorem C3_counterexample :
    stripJsxExpressionContent exNested = lstr "<div>\x7b\x7b\x7d</div>" ∧
    stripJsxExpressionContent exNested ≠ lstr "<div>\x7b\x7d</div>" := by
  refine ⟨by decide, by decide⟩

/-- Claim C3 as amended: outside expression blocks every scanned character
is copied through unchanged; inside an expression block a scanned character
contributes nothing to the stripped text, except that the opening brace and
the matching closing brace are retained as placeholders and that a nested
opening brace seen outside strings/templates is also retained. -/
theorem C3_amended :
    (∀ (s : SState) (prev : Option Char) (c : Char), s.inBlock = false →
      (stripStep s prev c).revResult = c :: s.revResult) ∧
    (∀ (s : SState) (prev : Option Char) (c : Char), s.inBlock = true →
      1 ≤ s.braceDepth →
      (stripStep s prev c).revResult =
        (if ¬(prev = some bsC ∧ (s.inString = true ∨ s.inTemplate = true)) ∧
            s.inString = false ∧ s.inTemplate = false ∧
            (c = lbC ∨ (c = rbC ∧ s.braceDepth = 1))
         then c :: s.revResult else s.revResult)) ∧
    stripJsxExpressionContent exNested = lstr "<div>\x7b\x7b\x7d</div>" := by
  have d1 : ¬dqC = lbC := by decide
  have d2 : ¬dqC = rbC := by decide
  have d3 : ¬sqC = lbC := by decide
  have d4 : ¬sqC = rbC := by decide
  have d5 : ¬btC = lbC := by decide
  have d6 : ¬btC = rbC := by decide
  refine ⟨?_, ?_, by decide⟩
  · intro s prev c h
    unfold stripStep emitCh
    split_ifs <;> simp_all [apply_ite SState.revResult]
  · intro s prev c h hd
    unfold stripStep emitCh
    split_ifs <;>
      (try simp_all [apply_ite SState.revResult]) <;>
      (try casesm* _ ∨ _, _ ∧ _) <;> (try simp_all) <;> omega

theorem C3_amended_witness :
    (stripStep stripInit none 'a').revResult = ['a'] ∧
    (stripStep { stripInit with inBlock := true, braceDepth := 1 } none 'a').revResult =
      ({ stripInit with inBlock := true, braceDepth := 1 } : SState).revResult := by
  constructor
  · exact C3_amended.1 stripInit none 'a' rfl
  · have h := C3_amended.2.1 { stripInit with inBlock := true, braceDepth := 1 }
      none 'a' rfl (by decide)
    rw [h]
    decide

/-- Claim C7: a closing tag token matching the stack top pops the stack; a
closing tag with a mismatched name or an empty stack appends an
"Unexpected closing tag" error without touching the stack; and on
`<div></span></div>` the validator reports exactly
`Unexpected closing tag: </span>`. -/
theorem C7_closing_tags :
    (∀ (stack errors : List (List Char)) (t : JsxTag),
      t.selfClose = false → (t.name.map Char.toLower) ∉ voidTags →
      t.closing = true →
      (∀ rest, stack = t.name :: rest → tagStep (stack, errors) t = (rest, errors)) ∧
      (stack.head? ≠ some t.name →
        tagStep (stack, errors) t =
          (stack, errors ++ [unexpectedCloseMsg t.name]))) ∧
    findUnclosedJsxTags exClose = [unexpectedCloseMsg (lstr "span")] := by
  refine ⟨?_, by decide⟩
  intro stack errors t h1 h2 h3
  constructor
  · intro rest hrest
    subst hrest
    simp [tagStep, h1, h2, h3]
  · intro hne
    cases stack with
    | nil => simp [tagStep, h1, h2, h3]
    | cons top rest =>
      have hm : ¬top = t.name := by simpa using hne
      simp [tagStep, h1, h2, h3, hm]

theorem C7_closing_tags_witness :
    tagStep ([lstr "div"], []) { closing := true, name := lstr "div", selfClose := false } =
      ([], []) ∧
    tagStep ([lstr "div"], []) { closing := true, name := lstr "span", selfClose := false } =
      ([lstr "div"], [unexpectedCloseMsg (lstr "span")]) := by
  constructor
  · exact (C7_closing_tags.1 [lstr "div"] []
      { closing := true, name := lstr "div", selfClose := false }
      rfl (by decide) rfl).1 [] rfl
  · have h := (C7_closing_tags.1 [lstr "div"] []
      { closing := true, name := lstr "span", selfClose := false }
      rfl (by decide) rfl).2 (by decide)
    simpa using h

/-- Claim C8: the tag validator reports every name remaining on the stack as
an "Unclosed tag" error, appended after the scan errors in bottom-to-top
(outermost-first) stack order; `<div><p>Hello</p>` yields exactly
`Unclosed tag: <div>` (no error for `<p>`), and `<div><span>` reports the
outer `div` before the inner `span>`. -/
theorem C8_unclosed_reporting :
    (∀ (code n : List Char),
      n ∈ ((findTags (stripJsxExpressionContent code)).foldl tagStep ([], [])).1 →
      unclosedMsg n ∈ findUnclosedJsxTags code) ∧
    (∀ code : List Char,
      findUnclosedJsxTags code =
        ((findTags (stripJsxExpressionContent code)).foldl tagStep ([], [])).2 ++
          (((findTags (stripJsxExpressionContent code)).foldl tagStep
              ([], [])).1).reverse.map unclosedMsg) ∧
    findUnclosedJsxTags exUnclosed = [unclosedMsg (lstr "div")] ∧
    findUnclosedJsxTags exUnclosed2 =
      [unclosedMsg (lstr "div"), unclosedMsg (lstr "span")] := by
  refine ⟨?_, ?_, by decide, by decide⟩
  · intro code n hn
    unfold findUnclosedJsxTags
    simp only [List.mem_append, List.mem_map, List.mem_reverse]
    exact Or.inr ⟨n, hn, rfl⟩
  · intro code
    rfl

theorem C8_unclosed_reporting_witness :
    unclosedMsg (lstr "div") ∈ findUnclosedJsxTags exUnclosed2 :=
  C8_unclosed_reporting.1 exUnclosed2 (lstr "div") (by decide)

/-- The tag loop only ever appends "Unexpected closing tag" messages to the
error list. -/
theorem tagStep_errors (acc : List (List Char) × List (List Char)) (t : JsxTag) :
    (tagStep acc t).2 = acc.2 ∨
    (tagStep acc t).2 = acc.2 ++ [unexpectedCloseMsg t.name] := by
  rcases acc with ⟨stack, errors⟩
  unfold tagStep
  split_ifs with h1 h2 h3
  · left; rfl
  · left; rfl
  · cases stack with
    | nil => right; rfl
    | cons top rest =>
      by_cases he : top = t.name
      · left; simp [he]
      · right; simp [he]
  · left; rfl

/-- Every error accumulated by the tag loop starts with the letter U. -/
theorem tagFold_errors_headU (tags : List JsxTag) :
    ∀ (stack errors : List (List Char)),
      (∀ e ∈ errors, e.head? = some 'U') →
      ∀ e ∈ (tags.foldl tagStep (stack, errors)).2, e.head? = some 'U' := by
  induction tags with
  | nil => intro stack errors h e he; exact h e he
  | cons t ts ih =>
    intro stack errors h e he
    simp only [List.foldl_cons] at he
    rcases hts : tagStep (stack, errors) t with ⟨st, er⟩
    rw [hts] at he
    refine ih st er ?_ e he
    intro e' he'
    rcases tagStep_errors (stack, errors) t with hcase | hcase <;>
      rw [hts] at hcase <;> simp only at hcase <;> subst hcase
    · exact h e' he'
    · rcases List.mem_append.mp he' with hmem | hmem
      · exact h e' hmem
      · simp only [List.mem_singleton] at hmem
        subst hmem
        rfl

/-- Every error reported by the tag validator starts with the letter U. -/
theorem findUnclosed_headU (code : List Char) :
    ∀ e ∈ findUnclosedJsxTags code, e.head? = some 'U' := by
  intro e he
  unfold findUnclosedJsxTags at he
  simp only [List.mem_append] at he
  rcases he with he | he
  · exact tagFold_errors_headU _ _ _ (by simp) e he
  · simp only [List.mem_map] at he
    obtain ⟨n, _, rfl⟩ := he
    rfl

/-- Every error of the structural phase starts with the letter U. -/
theorem checkStructure_errors_headU (code : List Char) (fw : Framework) :
    ∀ e ∈ (checkStructure code fw).1, e.head? = some 'U' := by
  intro e he
  simp only [checkStructure, List.mem_append] at he
  rcases he with (he | he) | he
  · exact findUnclosed_headU code e he
  · split at he <;> simp only [List.mem_singleton, List.not_mem_nil] at he
    · subst he; rfl
  · split at he <;> simp only [List.mem_singleton, List.not_mem_nil] at he
    · subst he; rfl

/-- Claim C9: for framework react, code matching the `useState` usage
pattern, containing an import statement, and for which neither import form
of `useState` is present gets the warning "Possibly missing import:
useState" — in the warnings, never in the errors; and the same usage with a
named `useState` import gets no such warning. -/
theorem C9_useState_warning :
    (∀ code : List Char,
      usageOccurs (lstr "useState") false code = true →
      hasImportStatements code = true →
      hasImport code (lstr "useState") = false →
      missingImportMsg (lstr "useState") ∈
          (validate [] code Framework.react).warnings ∧
      missingImportMsg (lstr "useState") ∉
          (validate [] code Framework.react).errors) ∧
    missingImportMsg (lstr "useState") ∉
      (validate [] exReactNamed Framework.react).warnings := by
  refine ⟨?_, by decide⟩
  intro code h1 h2 h3
  constructor
  · simp [validate, checkStructure, detectMissingImports, frameworkChecks,
      h1, h2, h3]
  · intro hmem
    simp only [validate, List.isEmpty_nil, if_true, List.nil_append] at hmem
    have hU := checkStructure_errors_headU code Framework.react _ hmem
    exact absurd hU (by decide)

theorem C9_useState_warning_witness :
    missingImportMsg (lstr "useState") ∈
        (validate [] exReactDefault Framework.react).warnings ∧
    missingImportMsg (lstr "useState") ∉
        (validate [] exReactDefault Framework.react).errors :=
  C9_useState_warning.1 exReactDefault (by decide) (by decide) (by decide)

/-- Claim C10: a warning for an expected import name is suppressed whenever
`hasImport` accepts the code for that name; the import-presence regexes are
case-insensitive, so the named import `{ USESTATE }` suppresses the
`useState` warning, while the usage pattern itself is case-sensitive, so
`USESTATE(0)` does not count as a `useState` usage. -/
theorem C10_case_insensitive_import :
    (∀ (code : List Char) (fw : Framework) (name : List Char),
      hasImport code name = true →
      missingImportMsg name ∉ detectMissingImports code fw) ∧
    hasImport exReactUpper (lstr "useState") = true ∧
    detectMissingImports exReactUpper Framework.react = [] ∧
    usageOccurs (lstr "useState") false exUsageUpper = false ∧
    detectMissingImports exUsageUpper Framework.react = [] := by
  refine ⟨?_, by decide, by decide, by decide, by decide⟩
  intro code fw name h hmem
  simp only [detectMissingImports, List.mem_filterMap] at hmem
  obtain ⟨p, hp, hf⟩ := hmem
  by_cases hc : (usageOccurs p.1 p.2 code && !hasImport code p.1) = true
  · rw [if_pos hc] at hf
    have hname : p.1 = name := by
      have heq := Option.some.inj hf
      unfold missingImportMsg at heq
      exact List.append_cancel_left heq
    rw [hname, h] at hc
    simp at hc
  · rw [if_neg hc] at hf
    exact Option.noConfusion hf

theorem C10_case_insensitive_import_witness :
    missingImportMsg (lstr "useState") ∉
      detectMissingImports exReactUpper Framework.react :=
  C10_case_insensitive_import.1 exReactUpper Framework.react (lstr "useState")
    (by decide)

end Shipkit
